import Mathlib

/-!
# auth-server: the persistence layer

A shallow embedding of `src/persistence/types/postgres.db.js` (the adapter over
the table `oidc_store`) and of `src/persistence/db.js` (the choice of the
backend), followed by the properties of the store that the specification states.

Conventions of the embedding

* The table is a list of rows in storage order. A query without `ORDER BY`
  yields the matching rows in that order, `LIMIT 1` keeps the first of them.
* There is one clock, counted in whole milliseconds (`Int`): `Date.now()` in
  `upsert` and `NOW()` in the SQL text read the same clock, which every
  operation receives as the argument `now`.
* Every query succeeds: a failure of the connection pool is outside the
  embedding of the store (it is part of the embedding of `getDBAdapter`).
* A payload is a JSON object. It is kept as the list of its members; reading a
  member takes the first one of that name. What is stored is what was passed:
  the order in which `jsonb` keeps the members is not part of the embedding.
* A TTL is a whole number of seconds (`Int`), or is missing (`none` stands for
  `undefined` and `null`). Arithmetic on whole numbers is exact: for a clock
  within the range of time values, the sum `Date.now() + expiresIn * 1000` in
  double precision is the exact sum wherever that lies in the range of a `Date`,
  and lies out of the range wherever the exact sum does.
* A `Date` is a time value within 8.64e15 milliseconds of the epoch, or the
  Invalid Date; a statement that is given the Invalid Date for a timestamp is
  rejected. The narrower range of timestamps of the database is not part of
  the embedding.
-/

namespace AuthServer

/-! ## JSON documents -/

/-- JSON values, as held by a `jsonb` column. -/
inductive Json where
  | null
  | bool (b : Bool)
  | num (q : ℚ)
  | str (s : String)
  | arr (items : List Json)
  | obj (members : List (String × Json))

/-- The members of the JSON object an artifact is stored as. -/
abbrev Payload := List (String × Json)

/-- Reading `payload.k` in JavaScript, or `payload->'k'` in SQL: the member
named `k`, `none` (that is `undefined`, resp. SQL NULL) when there is none. -/
def Payload.get (p : Payload) (k : String) : Option Json :=
  (p.find? (fun m => m.1 == k)).map (fun m => m.2)

/-- The SQL function `jsonb_set(p, '{k}', v)` on an object, with its default
`create_missing = true`: the member `k` gets the value `v`, and is added when
the object has no such member. -/
def jsonb_set (p : Payload) (k : String) (v : Json) : Payload :=
  if p.any (fun m => m.1 == k) then
    p.map (fun m => if m.1 == k then (k, v) else m)
  else
    p ++ [(k, v)]

/-- How values that are neither strings nor null are turned into text. Both
conversions are made outside the adapter, and nothing below depends on what
they yield. -/
structure Rendering where
  /-- The text the driver sends for a number, boolean, array or object that is
  bound to a query parameter. -/
  param : Json → String
  /-- The text the operator `->>` yields for a number, boolean, array or
  object. -/
  field : Json → String

/-- A value as text: `undefined` and JSON null are SQL NULL, a string is its
own text, any other value is rendered by `render`. With the rendering of the
driver this is the parameter bound for `payload.grantId` and its like; with the
rendering of the database it is `payload->>'k'`. -/
def sqlText (render : Json → String) : Option Json → Option String
  | none => none
  | some .null => none
  | some (.str s) => some s
  | some v => some (render v)

/-! ## The table `oidc_store` -/

/-- A row of `oidc_store`. The column `id` is the key of the table
(`ON CONFLICT (id)`). -/
structure Row where
  id : String
  type : String
  payload : Payload
  grant_id : Option String
  user_code : Option String
  uid : Option String
  expires_at : Option Int
  consumed_at : Option Int

/-- The table, in storage order. -/
abbrev Store := List Row

/-- The key constraint of the table: no two rows share an `id`. -/
def Store.WF (s : Store) : Prop := (s.map Row.id).Nodup

instance (s : Store) : Decidable s.WF := by
  unfold Store.WF; infer_instance

/-- The SQL condition `expires_at IS NULL OR expires_at > NOW()`. -/
def notExpired (now : Int) (r : Row) : Bool :=
  match r.expires_at with
  | none => true
  | some e => decide (e > now)

/-- The SQL condition `c = $1` for a nullable text column `c` and a string
parameter: it does not hold when the column is NULL. -/
def colEq (c : Option String) (key : String) : Bool :=
  match c with
  | none => false
  | some v => v == key

/-! ## The adapter -/

/-- An adapter handle; `name` is the artifact kind it was constructed for
("Session", "AccessToken", "Client", ...). -/
structure PostgresAdapter where
  name : String

namespace PostgresAdapter

/-- Method `find(id)`: the payload of the first row selected by
`WHERE id = $1 AND (expires_at IS NULL OR expires_at > NOW())`, and `none`
(`undefined`) when no row is selected. -/
def find (id : String) (now : Int) (s : Store) : Option Payload :=
  match s.filter (fun r => r.id == id && notExpired now r) with
  | [] => none
  | row :: _ => some row.payload

/-- Method `findByUid(uid)`: the payload of `rows[0]` of
`WHERE uid = $1 AND (expires_at IS NULL OR expires_at > NOW()) LIMIT 1`. -/
def findByUid (uid : String) (now : Int) (s : Store) : Option Payload :=
  let rows := (s.filter (fun r => colEq r.uid uid && notExpired now r)).take 1
  rows.head?.map (fun r => r.payload)

/-- Method `findByUserCode(userCode)`: the payload of `rows[0]` of
`WHERE user_code = $1 AND (expires_at IS NULL OR expires_at > NOW()) LIMIT 1`. -/
def findByUserCode (userCode : String) (now : Int) (s : Store) : Option Payload :=
  let rows := (s.filter (fun r => colEq r.user_code userCode && notExpired now r)).take 1
  rows.head?.map (fun r => r.payload)

/-- A JavaScript `Date`: a time value in milliseconds, or the Invalid Date. -/
inductive JsDate where
  | valid (ms : Int)
  | invalid
  deriving DecidableEq

/-- The largest time value of a `Date`, 8.64e15 milliseconds on either side of
the epoch. -/
def maxTimeValue : Int := 8640000000000000

/-- The constructor `new Date(tv)` on a whole number of milliseconds: beyond
the range of time values it yields the Invalid Date. -/
def newDate (tv : Int) : JsDate :=
  if -maxTimeValue ≤ tv ∧ tv ≤ maxTimeValue then .valid tv else .invalid

/-- The value `expiresAt` of `upsert`:
`expiresIn ? new Date(Date.now() + (expiresIn * 1000)) : null`. A missing
`expiresIn` and the number `0` are both falsy. -/
def expiresAt (expiresIn : Option Int) (now : Int) : Option JsDate :=
  match expiresIn with
  | none => none
  | some n => if n ≠ 0 then some (newDate (now + n * 1000)) else none

/-- The row that the `INSERT` of `upsert` writes, for the timestamp
`expires_at` bound to `$7`. The column `consumed_at` is not among the inserted
columns and is NULL in a new row. -/
def newRow (self : PostgresAdapter) (R : Rendering) (id : String) (payload : Payload)
    (expires_at : Option Int) : Row :=
  { id := id
    type := self.name
    payload := payload
    grant_id := sqlText R.param (payload.get "grantId")
    user_code := sqlText R.param (payload.get "userCode")
    uid := sqlText R.param (payload.get "uid")
    expires_at := expires_at
    consumed_at := none }

/-- The clause `DO UPDATE SET payload = $3, grant_id = $4, user_code = $5,
uid = $6, expires_at = $7` of `upsert`, applied to the row that holds the id:
the columns `id`, `type` and `consumed_at` are not assigned. -/
def conflictUpdate (R : Rendering) (payload : Payload) (expires_at : Option Int)
    (r : Row) : Row :=
  { r with
    payload := payload
    grant_id := sqlText R.param (payload.get "grantId")
    user_code := sqlText R.param (payload.get "userCode")
    uid := sqlText R.param (payload.get "uid")
    expires_at := expires_at }

/-- The statement of `upsert`, run with the timestamp `expires_at` bound to
`$7`:
`INSERT INTO oidc_store (id, type, payload, grant_id, user_code, uid, expires_at)
VALUES ($1, ..., $7) ON CONFLICT (id) DO UPDATE SET ...`: a row that holds the
id is updated in place, otherwise the new row is added. -/
def upsertQuery (self : PostgresAdapter) (R : Rendering) (id : String) (payload : Payload)
    (expires_at : Option Int) (s : Store) : Store :=
  if s.any (fun r => r.id == id) then
    s.map (fun r => if r.id == id then conflictUpdate R payload expires_at r else r)
  else
    s ++ [self.newRow R id payload expires_at]

/-- Method `upsert(id, payload, expiresIn)`: computes `expiresAt` and runs the
statement. An Invalid Date is not a timestamp: the statement is rejected, the
rejection is passed on to the caller and the table is not written. -/
def upsert (self : PostgresAdapter) (R : Rendering) (id : String) (payload : Payload)
    (expiresIn : Option Int) (now : Int) (s : Store) : Except String Store :=
  match expiresAt expiresIn now with
  | none => .ok (self.upsertQuery R id payload none s)
  | some (.valid ms) => .ok (self.upsertQuery R id payload (some ms) s)
  | some .invalid => .error "invalid input syntax for type timestamp"

/-- The value `to_jsonb(EXTRACT(EPOCH FROM NOW()))`: the clock in seconds. -/
def epoch (now : Int) : Json := Json.num ((now : ℚ) / 1000)

/-- Method `consume(id)`:
`UPDATE oidc_store SET payload = jsonb_set(payload, '{consumed}', to_jsonb(EXTRACT(EPOCH FROM NOW()))),
consumed_at = NOW() WHERE id = $1`. -/
def consume (id : String) (now : Int) (s : Store) : Store :=
  s.map (fun r =>
    if r.id == id then
      { r with
        payload := jsonb_set r.payload "consumed" (epoch now)
        consumed_at := some now }
    else r)

/-- Method `destroy(id)`: `DELETE FROM oidc_store WHERE id = $1`. -/
def destroy (id : String) (s : Store) : Store :=
  s.filter (fun r => !(r.id == id))

/-- Method `revokeByGrantId(grantId)`: `DELETE FROM oidc_store WHERE grant_id = $1`. -/
def revokeByGrantId (grantId : String) (s : Store) : Store :=
  s.filter (fun r => !(colEq r.grant_id grantId))

/-- Method `findClientByJwksUri(jwksUri)`: the payload of `rows[0]` of
`WHERE type = 'Client' AND payload->>'jwks_uri' = $1 LIMIT 1`. The query has no
condition on `expires_at`. -/
def findClientByJwksUri (R : Rendering) (jwksUri : String) (s : Store) : Option Payload :=
  let rows := (s.filter (fun r =>
    r.type == "Client" && colEq (sqlText R.field (r.payload.get "jwks_uri")) jwksUri)).take 1
  rows.head?.map (fun r => r.payload)

end PostgresAdapter

/-! ## Sequences of writes -/

/-- A write to the store, with the handle, the arguments and the clock of the
call. -/
inductive Op where
  | upsert (self : PostgresAdapter) (id : String) (payload : Payload)
      (expiresIn : Option Int) (now : Int)
  | consume (id : String) (now : Int)
  | destroy (id : String)
  | revokeByGrantId (grantId : String)

/-- The store after one write. A rejected `upsert` leaves the table as it
was. -/
def Op.run (R : Rendering) (op : Op) (s : Store) : Store :=
  match op with
  | .upsert self id payload expiresIn now =>
    match self.upsert R id payload expiresIn now s with
    | .ok written => written
    | .error _ => s
  | .consume id now => PostgresAdapter.consume id now s
  | .destroy id => PostgresAdapter.destroy id s
  | .revokeByGrantId g => PostgresAdapter.revokeByGrantId g s

/-- The store after a sequence of writes, the head of the list first. -/
def runOps (R : Rendering) (ops : List Op) (s : Store) : Store :=
  ops.foldl (fun acc op => op.run R acc) s

/-- Whether a write addresses the row `id`, whose column `grant_id` holds
`grant`: an upsert, consume or destroy of that id, or a revocation of the grant
the row belongs to. -/
def Op.touches (id : String) (grant : Option String) : Op → Bool
  | .upsert _ i _ _ _ => i == id
  | .consume i _ => i == id
  | .destroy i => i == id
  | .revokeByGrantId g => colEq grant g

/-! ## The choice of the backend (`db.js`) -/

/-- The adapter classes `getDBAdapter` can hand out. -/
inductive Adapter where
  | MongoAdapter
  | DynamoDBAdapter
  | MemoryAdapter
  | PostgresAdapter
  deriving DecidableEq, Repr

/-- How a call of `getDBAdapter` ends: it returns a value, its promise is
rejected with an error, or the process exits with a code. -/
inductive Outcome where
  | returned (adapter : Adapter)
  | rejected (error : String)
  | exited (code : Nat)
  deriving DecidableEq, Repr

/-- What the surroundings answer during start-up. -/
structure Env where
  /-- The result of `MongoAdapter.connect()`: an error when it rejects. -/
  mongoConnect : Except String Unit
  /-- The result of `pool.connect()`: an error when it rejects. -/
  poolConnect : Except String Unit

/-- Static method `PostgresAdapter.connect()`: acquires a client from the pool, releases it,
logs, and returns the class itself; a rejection of `pool.connect()` is passed
on. -/
def PostgresAdapter.connect (env : Env) : Except String Adapter :=
  match env.poolConnect with
  | .error e => .error e
  | .ok () => .ok Adapter.PostgresAdapter

/-- Modelled from the spec: `MongoAdapter.connect()` of `types/mongodb.js`,
which is not among the sources. The initializer verifies connectivity and then
returns the ready adapter; a failure is passed on. -/
def MongoAdapter.connect (env : Env) : Except String Adapter :=
  match env.mongoConnect with
  | .error e => .error e
  | .ok () => .ok Adapter.MongoAdapter

/-- Function `getDBAdapter()`, for the value `type` of `config.db.type` (`none` when it
is `undefined`). -/
def getDBAdapter (type : Option String) (env : Env) : Outcome :=
  if type = some "mongodb" then
    match MongoAdapter.connect env with
    | .error e => .rejected e
    | .ok adapter => .returned adapter
  else if type = some "dynamodb" then
    .returned Adapter.DynamoDBAdapter
  else if type = some "memorydb" then
    .returned Adapter.MemoryAdapter
  else if type = some "postgres" then
    match PostgresAdapter.connect env with
    | .error e => .rejected e
    | .ok adapter => .returned adapter
  else
    .exited 1

/-! ## Rows of one id -/

/-- The rows the condition `id = $1` selects. -/
def rowsAt (id : String) (s : Store) : List Row :=
  s.filter (fun r => r.id == id)

open PostgresAdapter

/-! ## Sample data

The stores and calls at which the statements below are evaluated. -/

/-- A rendering for the samples. Their payloads hold strings in every member
that is turned into text, so that no sample depends on it. -/
def sampleRendering : Rendering :=
  { param := fun _ => "", field := fun _ => "" }

/-- An access token of the grant `g1`. -/
def tokenPayload : Payload :=
  [("grantId", Json.str "g1"), ("accountId", Json.str "alice"),
   ("scope", Json.arr [Json.str "openid", Json.str "email"])]

/-- The row that storing the token writes into an empty table, with the expiry
`e`. -/
def tokenRow (e : Option Int) : Row :=
  { id := "tok", type := "AccessToken", payload := tokenPayload, grant_id := some "g1",
    user_code := none, uid := none, expires_at := e, consumed_at := none }

/-- Writes that leave the row `tok` of the grant `g1` alone. -/
def otherWrites : List Op :=
  [ Op.upsert { name := "Session" } "sess" [("uid", Json.str "u1")] (some 60) 1500,
    Op.consume "sess" 1600,
    Op.revokeByGrantId "g2",
    Op.destroy "sess" ]

/-- A session of the user `u1`, as first stored. -/
def sessionA : Payload :=
  [("uid", Json.str "u1"), ("grantId", Json.str "g1"), ("userCode", Json.str "ABCD-1234")]

/-- The same session, stored again with other identifiers. -/
def sessionB : Payload :=
  [("uid", Json.str "u2"), ("grantId", Json.str "g2"), ("loginTs", Json.num 1700000000)]

/-- The session `sess`, which expires at the time 90000. -/
def sessionRow : Row :=
  { id := "sess", type := "Session", payload := sessionA, grant_id := some "g1",
    user_code := some "ABCD-1234", uid := some "u1", expires_at := some 90000,
    consumed_at := none }

/-- A table of two rows: the session `sess` and the token `tok`. -/
def twoRows : Store :=
  [ sessionRow, tokenRow none ]

/-- A client registered with a key set URL. -/
def clientPayload : Payload :=
  [("client_id", Json.str "c1"), ("jwks_uri", Json.str "https://issuer/jwks")]

/-- The table after the client was stored at the time 1000 for ten seconds. -/
def clientTable : Store :=
  [ { id := "c1", type := "Client", payload := clientPayload, grant_id := none,
      user_code := none, uid := none, expires_at := some 11000, consumed_at := none } ]

/-- A device code that expires at the time 3000. -/
def liveDevice : Row :=
  { id := "d2", type := "DeviceCode", payload := sessionA,
    grant_id := some "g1", user_code := some "ABCD-1234", uid := some "u1",
    expires_at := some 3000, consumed_at := none }

/-- A table in which the user code `ABCD-1234` and the session `u1` each belong
to a row that expires at the time 1000 and, stored after it, to a row that
expires at the time 3000. -/
def mixedExpiry : Store :=
  [ { id := "d1", type := "DeviceCode", payload := [("userCode", Json.str "ABCD-1234")],
      grant_id := none, user_code := some "ABCD-1234", uid := some "u1",
      expires_at := some 1000, consumed_at := none },
    liveDevice ]

/-- Start-up surroundings in which the pool of the relational backend refuses
the connection. -/
def poolDown : Env :=
  { mongoConnect := .ok (), poolConnect := .error "ECONNREFUSED" }

/-- Start-up surroundings in which every backend answers. -/
def allUp : Env :=
  { mongoConnect := .ok (), poolConnect := .ok () }

theorem find_eq_rowsAt (id : String) (now : Int) (s : Store) :
    find id now s = (((rowsAt id s).filter (notExpired now)).head?).map (fun r => r.payload) := by
  unfold find rowsAt
  rw [List.filter_filter]
  have h : (fun r : Row => r.id == id && notExpired now r)
      = (fun r : Row => notExpired now r && r.id == id) := by
    funext r; exact Bool.and_comm _ _
  rw [h]
  cases (List.filter (fun r : Row => notExpired now r && r.id == id) s) <;> rfl

theorem mem_rowsAt {id : String} {s : Store} {r : Row} :
    r ∈ rowsAt id s ↔ r ∈ s ∧ r.id = id := by
  simp [rowsAt]

/-- When the rows of an id all carry the payload `p` and the expiry `e`, and
there is one, `find` yields `p` as long as `e` has not passed. -/
theorem find_of_uniform (id : String) (now : Int) (s : Store) (p : Payload) (e : Option Int)
    (hne : rowsAt id s ≠ [])
    (hall : ∀ r ∈ rowsAt id s, r.payload = p ∧ r.expires_at = e) :
    find id now s = if (∀ x, e = some x → now < x) then some p else none := by
  rw [find_eq_rowsAt]
  cases hl : rowsAt id s with
  | nil => exact absurd hl hne
  | cons r rest =>
    rw [hl] at hall
    obtain ⟨hp, he⟩ := hall r (List.mem_cons_self _ _)
    by_cases hv : ∀ x, e = some x → now < x
    · have hr : notExpired now r = true := by
        unfold notExpired
        rw [he]
        cases e with
        | none => rfl
        | some x => simpa using hv x rfl
      rw [if_pos hv]
      simp [List.filter_cons, hr, hp]
    · have hnone : List.filter (notExpired now) (r :: rest) = [] := by
        rw [List.filter_eq_nil_iff]
        intro r' hr'
        obtain ⟨_, he'⟩ := hall r' hr'
        unfold notExpired
        rw [he']
        cases e with
        | none => exact absurd (fun x hx => by cases hx) hv
        | some x =>
          have : ¬ now < x := fun hlt => hv (fun y hy => by cases hy; exact hlt)
          simpa using this
      rw [if_neg hv]
      simp [hnone]

/-! ## What a write does to the rows of an id -/

theorem filter_map_of_fixed {α : Type} (q : α → Bool) (f : α → α) (l : List α)
    (hq : ∀ a ∈ l, q (f a) = q a) (hfix : ∀ a ∈ l, q a = true → f a = a) :
    (l.map f).filter q = l.filter q := by
  induction l with
  | nil => rfl
  | cons a rest ih =>
    have ih' := ih (fun b hb => hq b (List.mem_cons_of_mem _ hb))
      (fun b hb => hfix b (List.mem_cons_of_mem _ hb))
    have ha := hq a (List.mem_cons_self _ _)
    rw [List.map_cons, List.filter_cons, List.filter_cons, ha, ih']
    cases hqa : q a with
    | false => simp
    | true => simp [hfix a (List.mem_cons_self _ _) hqa]

theorem upsertQuery_of_mem (self : PostgresAdapter) (R : Rendering) (id : String)
    (p : Payload) (e : Option Int) (s : Store)
    (h : ∃ r ∈ s, r.id = id) :
    self.upsertQuery R id p e s
      = s.map (fun r => if r.id == id then conflictUpdate R p e r else r) := by
  have hany : (s.any (fun r => r.id == id)) = true := by
    obtain ⟨r, hr, hrid⟩ := h
    exact List.any_eq_true.mpr ⟨r, hr, by simp [hrid]⟩
  unfold upsertQuery
  rw [if_pos hany]

theorem upsertQuery_of_not_mem (self : PostgresAdapter) (R : Rendering) (id : String)
    (p : Payload) (e : Option Int) (s : Store)
    (h : ∀ r ∈ s, r.id ≠ id) :
    self.upsertQuery R id p e s = s ++ [self.newRow R id p e] := by
  have hany : ¬ (s.any (fun r => r.id == id)) = true := by
    intro hc
    obtain ⟨r, hr, hrid⟩ := List.any_eq_true.mp hc
    exact h r hr (by simpa using hrid)
  unfold upsertQuery
  rw [if_neg hany]

theorem mem_or_not_mem (id : String) (s : Store) :
    (∃ r ∈ s, r.id = id) ∨ (∀ r ∈ s, r.id ≠ id) := by
  by_cases h : ∃ r ∈ s, r.id = id
  · exact Or.inl h
  · refine Or.inr (fun r hr hc => h ⟨r, hr, hc⟩)

theorem rowsAt_upsertQuery_other (self : PostgresAdapter) (R : Rendering) (i id : String)
    (p : Payload) (e : Option Int) (s : Store) (h : i ≠ id) :
    rowsAt id (self.upsertQuery R i p e s) = rowsAt id s := by
  rcases mem_or_not_mem i s with hmem | hmem
  · rw [upsertQuery_of_mem self R i p e s hmem]
    unfold rowsAt
    apply filter_map_of_fixed
    · intro r _
      by_cases hr : r.id = i <;> simp [hr, conflictUpdate]
    · intro r _ hrid
      have hrid' : r.id = id := by simpa using hrid
      have : ¬ r.id = i := fun hc => h (hc ▸ hrid')
      simp [this]
  · rw [upsertQuery_of_not_mem self R i p e s hmem]
    unfold rowsAt
    rw [List.filter_append]
    have : ((self.newRow R i p e).id == id) = false := by
      simp [newRow, h]
    simp [List.filter_cons, this]

theorem rowsAt_consume_other (i id : String) (now : Int) (s : Store) (h : i ≠ id) :
    rowsAt id (consume i now s) = rowsAt id s := by
  unfold consume rowsAt
  apply filter_map_of_fixed
  · intro r _
    by_cases hr : r.id = i <;> simp [hr]
  · intro r _ hrid
    have hrid' : r.id = id := by simpa using hrid
    have : ¬ r.id = i := fun hc => h (hc ▸ hrid')
    simp [this]

theorem rowsAt_destroy_other (i id : String) (s : Store) (h : i ≠ id) :
    rowsAt id (destroy i s) = rowsAt id s := by
  unfold destroy rowsAt
  rw [List.filter_filter]
  apply List.filter_congr
  intro r _
  by_cases hr : r.id = id
  · have : ¬ r.id = i := fun hc => h (hc ▸ hr)
    simp [hr] at this ⊢
    exact this
  · simp [hr]

theorem rowsAt_revoke_other (g : String) (id : String) (grant : Option String) (s : Store)
    (hg : colEq grant g = false) (hrows : ∀ r ∈ rowsAt id s, r.grant_id = grant) :
    rowsAt id (revokeByGrantId g s) = rowsAt id s := by
  unfold revokeByGrantId
  unfold rowsAt at hrows ⊢
  rw [List.filter_filter]
  apply List.filter_congr
  intro r hr
  by_cases hid : r.id = id
  · have hgr := hrows r (by simp [hr, hid])
    simp [hid, hgr, hg]
  · simp [hid]

theorem rowsAt_run (R : Rendering) (id : String) (grant : Option String) (op : Op) (s : Store)
    (hop : op.touches id grant = false) (hrows : ∀ r ∈ rowsAt id s, r.grant_id = grant) :
    rowsAt id (op.run R s) = rowsAt id s := by
  cases op with
  | upsert self i p ttl now =>
    have hne : i ≠ id := by simpa [Op.touches] using hop
    show rowsAt id (match self.upsert R i p ttl now s with
      | .ok written => written
      | .error _ => s) = rowsAt id s
    unfold upsert
    cases expiresAt ttl now with
    | none => exact rowsAt_upsertQuery_other self R i id p none s hne
    | some d =>
      cases d with
      | valid ms => exact rowsAt_upsertQuery_other self R i id p (some ms) s hne
      | invalid => rfl
  | consume i now =>
    have : i ≠ id := by simpa [Op.touches] using hop
    exact rowsAt_consume_other i id now s this
  | destroy i =>
    have : i ≠ id := by simpa [Op.touches] using hop
    exact rowsAt_destroy_other i id s this
  | revokeByGrantId g =>
    exact rowsAt_revoke_other g id grant s (by simpa [Op.touches] using hop) hrows

theorem rowsAt_runOps (R : Rendering) (id : String) (grant : Option String) (ops : List Op) :
    ∀ (s : Store), (∀ op ∈ ops, op.touches id grant = false) →
      (∀ r ∈ rowsAt id s, r.grant_id = grant) →
      rowsAt id (runOps R ops s) = rowsAt id s := by
  induction ops with
  | nil => intro s _ _; rfl
  | cons op rest ih =>
    intro s hops hrows
    have h1 := rowsAt_run R id grant op s (hops op (List.mem_cons_self _ _)) hrows
    have h2 := ih (op.run R s) (fun o ho => hops o (List.mem_cons_of_mem _ ho))
      (by rw [h1]; exact hrows)
    show rowsAt id (runOps R rest (op.run R s)) = rowsAt id s
    rw [h2, h1]

/-- After `upsert(id, p, ttl)` there is a row of that id, and every row of that
id carries `p`, the expiry computed from `ttl`, and the columns derived from
`p`. -/
theorem rowsAt_upsertQuery_self (self : PostgresAdapter) (R : Rendering) (id : String)
    (p : Payload) (e : Option Int) (s : Store) :
    rowsAt id (self.upsertQuery R id p e s) ≠ [] ∧
    ∀ r ∈ rowsAt id (self.upsertQuery R id p e s),
      r.payload = p ∧ r.expires_at = e ∧
      r.grant_id = sqlText R.param (p.get "grantId") ∧
      r.user_code = sqlText R.param (p.get "userCode") ∧
      r.uid = sqlText R.param (p.get "uid") := by
  rcases mem_or_not_mem id s with hmem | hmem
  · rw [upsertQuery_of_mem self R id p e s hmem]
    constructor
    · obtain ⟨r, hr, hrid⟩ := hmem
      intro hnil
      have hin : conflictUpdate R p e r ∈ rowsAt id (s.map (fun r =>
          if r.id == id then conflictUpdate R p e r else r)) := by
        rw [mem_rowsAt]
        refine ⟨List.mem_map.mpr ⟨r, hr, by simp [hrid]⟩, ?_⟩
        simp [conflictUpdate, hrid]
      rw [hnil] at hin
      exact absurd hin (List.not_mem_nil _)
    · intro r hr
      rw [mem_rowsAt] at hr
      obtain ⟨hin, hid⟩ := hr
      obtain ⟨r0, _, rfl⟩ := List.mem_map.mp hin
      by_cases h0 : r0.id = id
      · simp [h0, conflictUpdate]
      · simp [h0] at hid
  · rw [upsertQuery_of_not_mem self R id p e s hmem]
    have hnone : rowsAt id s = [] := by
      unfold rowsAt
      rw [List.filter_eq_nil_iff]
      intro r hr hrid
      exact hmem r hr (by simpa using hrid)
    have hrows : rowsAt id (s ++ [self.newRow R id p e]) = [self.newRow R id p e] := by
      unfold rowsAt at hnone ⊢
      rw [List.filter_append, hnone]
      simp [List.filter_cons, newRow]
    rw [hrows]
    refine ⟨by simp, ?_⟩
    intro r hr
    have : r = self.newRow R id p e := by simpa using hr
    subst this
    simp [newRow]

/-! ## When `upsert` writes -/

theorem upsert_without_ttl (self : PostgresAdapter) (R : Rendering) (id : String)
    (p : Payload) (now : Int) (s : Store) :
    self.upsert R id p none now s = .ok (self.upsertQuery R id p none s) := rfl

theorem upsert_zero_ttl (self : PostgresAdapter) (R : Rendering) (id : String)
    (p : Payload) (now : Int) (s : Store) :
    self.upsert R id p (some 0) now s = .ok (self.upsertQuery R id p none s) := rfl

theorem upsert_in_range (self : PostgresAdapter) (R : Rendering) (id : String)
    (p : Payload) (n now : Int) (s : Store) (hn : n ≠ 0)
    (hr : -maxTimeValue ≤ now + n * 1000 ∧ now + n * 1000 ≤ maxTimeValue) :
    self.upsert R id p (some n) now s
      = .ok (self.upsertQuery R id p (some (now + n * 1000)) s) := by
  unfold upsert expiresAt newDate
  simp only [hn, ne_eq, not_false_eq_true, if_true, hr, and_self]

theorem upsert_out_of_range (self : PostgresAdapter) (R : Rendering) (id : String)
    (p : Payload) (n now : Int) (s : Store) (hn : n ≠ 0)
    (hr : ¬ (-maxTimeValue ≤ now + n * 1000 ∧ now + n * 1000 ≤ maxTimeValue)) :
    self.upsert R id p (some n) now s = .error "invalid input syntax for type timestamp" := by
  unfold upsert expiresAt newDate
  simp only [hn, ne_eq, not_false_eq_true, if_true, hr, if_false]

/-- When the expiry of the call is a valid `Date`, or there is none, `upsert`
runs its statement with one timestamp, whatever the table. -/
theorem upsert_ok (ttl : Option Int) (now : Int)
    (hdate : ∀ n, ttl = some n → n ≠ 0 →
      -maxTimeValue ≤ now + n * 1000 ∧ now + n * 1000 ≤ maxTimeValue) :
    ∃ e : Option Int, ∀ (self : PostgresAdapter) (R : Rendering) (id : String) (p : Payload)
      (s : Store), self.upsert R id p ttl now s = .ok (self.upsertQuery R id p e s) := by
  cases ttl with
  | none => exact ⟨none, fun self R id p s => rfl⟩
  | some n =>
    by_cases hn : n = 0
    · subst hn
      exact ⟨none, fun self R id p s => rfl⟩
    · exact ⟨some (now + n * 1000), fun self R id p s =>
        upsert_in_range self R id p n now s hn (hdate n rfl hn)⟩

/-! ## Expiry of what `upsert` stores -/

theorem find_runOps_upsertQuery (self : PostgresAdapter) (R : Rendering) (id : String)
    (payload : Payload) (e : Option Int) (s : Store) (ops : List Op) (q : Int)
    (hops : ∀ op ∈ ops, op.touches id (sqlText R.param (payload.get "grantId")) = false) :
    find id q (runOps R ops (self.upsertQuery R id payload e s))
      = if (∀ x, e = some x → q < x) then some payload else none := by
  obtain ⟨hne, hall⟩ := rowsAt_upsertQuery_self self R id payload e s
  have hrows := rowsAt_runOps R id (sqlText R.param (payload.get "grantId")) ops
    (self.upsertQuery R id payload e s) hops (fun r hr => (hall r hr).2.2.1)
  apply find_of_uniform
  · rw [hrows]; exact hne
  · rw [hrows]
    intro r hr
    exact ⟨(hall r hr).1, (hall r hr).2.1⟩

/-- C1, as amended. Let `upsert(id, payload, t)` be called at the time `now`
and be followed by any writes that do not address that row. When `t` is zero,
or `now + 1000 * t` is a time value of a `Date` (the clock runs in
milliseconds), the call writes the table, and `find(id)` at the query time `q`
returns the payload when `t` is zero (a zero TTL counts as none) or
`q < now + 1000 * t`, and `undefined` otherwise. For any other `t` the call is
rejected and the table stays as it was. -/
theorem find_after_upsert_with_ttl (self : PostgresAdapter) (R : Rendering) (id : String)
    (payload : Payload) (t : Int) (now : Int) (s : Store) (ops : List Op) (q : Int)
    (hops : ∀ op ∈ ops, op.touches id (sqlText R.param (payload.get "grantId")) = false) :
    ((t = 0 ∨ (-maxTimeValue ≤ now + t * 1000 ∧ now + t * 1000 ≤ maxTimeValue)) →
      ∃ written, self.upsert R id payload (some t) now s = .ok written ∧
        find id q (runOps R ops written)
          = if t = 0 ∨ q < now + t * 1000 then some payload else none) ∧
    ((t ≠ 0 ∧ ¬ (-maxTimeValue ≤ now + t * 1000 ∧ now + t * 1000 ≤ maxTimeValue)) →
      (∃ err, self.upsert R id payload (some t) now s = .error err) ∧
      (Op.upsert self id payload (some t) now).run R s = s) := by
  constructor
  · intro h
    by_cases ht : t = 0
    · subst ht
      refine ⟨_, upsert_zero_ttl self R id payload now s, ?_⟩
      rw [find_runOps_upsertQuery self R id payload none s ops q hops]
      simp
    · have hr := h.resolve_left ht
      refine ⟨_, upsert_in_range self R id payload t now s ht hr, ?_⟩
      rw [find_runOps_upsertQuery self R id payload (some (now + t * 1000)) s ops q hops]
      by_cases hq : q < now + t * 1000
      · simp [ht, hq]
      · simp [ht, hq]
  · rintro ⟨ht, hr⟩
    have herr := upsert_out_of_range self R id payload t now s ht hr
    refine ⟨⟨_, herr⟩, ?_⟩
    show (match self.upsert R id payload (some t) now s with
      | .ok written => written
      | .error _ => s) = s
    rw [herr]

/-- A token stored for three seconds at the time 1000 is found at the time
3999 and is not found at the time 4000, whatever is written to other rows in
between; stored for 10^13 seconds, it is rejected. -/
theorem find_after_upsert_with_ttl_witness :
    (∀ op ∈ otherWrites,
        op.touches "tok" (sqlText sampleRendering.param (tokenPayload.get "grantId")) = false) ∧
    (∃ written, upsert { name := "AccessToken" } sampleRendering "tok" tokenPayload (some 3) 1000 []
        = .ok written ∧
      find "tok" 3999 (runOps sampleRendering otherWrites written) = some tokenPayload) ∧
    (∃ written, upsert { name := "AccessToken" } sampleRendering "tok" tokenPayload (some 3) 1000 []
        = .ok written ∧
      find "tok" 4000 (runOps sampleRendering otherWrites written) = none) ∧
    (∃ err, upsert { name := "AccessToken" } sampleRendering "tok" tokenPayload
        (some 10000000000000) 1000 [] = .error err) := by
  refine ⟨by decide, ?_, ?_, ?_⟩
  · obtain ⟨w, hw, hf⟩ := (find_after_upsert_with_ttl { name := "AccessToken" } sampleRendering
      "tok" tokenPayload 3 1000 [] otherWrites 3999 (by decide)).1 (Or.inr (by decide))
    exact ⟨w, hw, hf.trans (if_pos (by decide))⟩
  · obtain ⟨w, hw, hf⟩ := (find_after_upsert_with_ttl { name := "AccessToken" } sampleRendering
      "tok" tokenPayload 3 1000 [] otherWrites 4000 (by decide)).1 (Or.inr (by decide))
    exact ⟨w, hw, hf.trans (if_neg (by decide))⟩
  · exact ((find_after_upsert_with_ttl { name := "AccessToken" } sampleRendering
      "tok" tokenPayload 10000000000000 1000 [] otherWrites 4000 (by decide)).2
        ⟨by decide, by decide⟩).1

/-- C1, as stated, fails for the TTL 0: a token stored with `upsert(id, payload, 0)`
at the time 1000 has no expiry and is still returned at the time 5000, although
`5000 ≥ 1000 + 0`. It fails as well for a TTL whose expiry is no `Date`: with
the TTL 10^13 the call is rejected, nothing is stored, and `find` returns
`undefined` at the time 5000, although `5000 < 1000 + 10^13 * 1000`. -/
theorem find_after_upsert_zero_ttl :
    ((1000 : Int) + 0 * 1000 ≤ 5000 ∧
      upsert { name := "AccessToken" } sampleRendering "tok" tokenPayload (some 0) 1000 []
        = .ok [tokenRow none] ∧
      find "tok" 5000 [tokenRow none] = some tokenPayload) ∧
    ((5000 : Int) < 1000 + 10000000000000 * 1000 ∧
      upsert { name := "AccessToken" } sampleRendering "tok" tokenPayload (some 10000000000000)
        1000 [] = .error "invalid input syntax for type timestamp" ∧
      find "tok" 5000 ((Op.upsert { name := "AccessToken" } "tok" tokenPayload
        (some 10000000000000) 1000).run sampleRendering []) = none) :=
  ⟨⟨by decide, rfl, rfl⟩, ⟨by decide, rfl, rfl⟩⟩

/-- C2. The call `upsert(id, payload)` without a TTL writes the table, and
after it, and after any writes that do not address that row, `find(id)` returns
exactly the payload at every query time. -/
theorem find_after_upsert_without_ttl (self : PostgresAdapter) (R : Rendering) (id : String)
    (payload : Payload) (now : Int) (s : Store) (ops : List Op) (q : Int)
    (hops : ∀ op ∈ ops, op.touches id (sqlText R.param (payload.get "grantId")) = false) :
    ∃ written, self.upsert R id payload none now s = .ok written ∧
      find id q (runOps R ops written) = some payload := by
  refine ⟨_, upsert_without_ttl self R id payload now s, ?_⟩
  rw [find_runOps_upsertQuery self R id payload none s ops q hops]
  simp

/-- A token stored without a TTL is found a year later, after writes to other
rows. -/
theorem find_after_upsert_without_ttl_witness :
    (∀ op ∈ otherWrites,
        op.touches "tok" (sqlText sampleRendering.param (tokenPayload.get "grantId")) = false) ∧
    ∃ written, upsert { name := "AccessToken" } sampleRendering "tok" tokenPayload none 1000 []
        = .ok written ∧
      find "tok" 31536000000 (runOps sampleRendering otherWrites written) = some tokenPayload :=
  ⟨by decide,
   find_after_upsert_without_ttl { name := "AccessToken" } sampleRendering "tok" tokenPayload
      1000 [] otherWrites 31536000000 (by decide)⟩

/-! ## The key constraint -/

theorem map_id_upsertQuery (R : Rendering) (id : String) (p : Payload) (e : Option Int) (s : Store) :
    (s.map (fun r => if r.id == id then conflictUpdate R p e r else r)).map Row.id
      = s.map Row.id := by
  rw [List.map_map]
  apply List.map_congr_left
  intro r _
  by_cases h : r.id = id <;> simp [h, conflictUpdate]

theorem upsertQuery_WF (self : PostgresAdapter) (R : Rendering) (id : String) (p : Payload)
    (e : Option Int) (s : Store) (hwf : s.WF) :
    (self.upsertQuery R id p e s).WF := by
  unfold Store.WF at hwf ⊢
  rcases mem_or_not_mem id s with hmem | hmem
  · rw [upsertQuery_of_mem self R id p e s hmem, map_id_upsertQuery]
    exact hwf
  · rw [upsertQuery_of_not_mem self R id p e s hmem, List.map_append]
    apply List.Nodup.append hwf (by simp)
    intro a ha hb
    obtain ⟨r, hr, rfl⟩ := List.mem_map.mp ha
    have : r.id = id := by simpa [newRow] using hb
    exact hmem r hr this

theorem consume_WF (id : String) (now : Int) (s : Store) (hwf : s.WF) :
    (consume id now s).WF := by
  unfold Store.WF at hwf ⊢
  have : (consume id now s).map Row.id = s.map Row.id := by
    unfold consume
    rw [List.map_map]
    apply List.map_congr_left
    intro r _
    by_cases h : r.id = id <;> simp [h]
  rw [this]
  exact hwf

theorem filter_WF (q : Row → Bool) (s : Store) (hwf : s.WF) : Store.WF (s.filter q) := by
  unfold Store.WF at hwf ⊢
  exact List.Nodup.sublist (List.Sublist.map _ (List.filter_sublist s)) hwf

theorem run_WF (R : Rendering) (op : Op) (s : Store) (hwf : s.WF) : (op.run R s).WF := by
  cases op with
  | upsert self i p ttl now =>
    show Store.WF (match self.upsert R i p ttl now s with
      | .ok written => written
      | .error _ => s)
    unfold upsert
    cases expiresAt ttl now with
    | none => exact upsertQuery_WF self R i p none s hwf
    | some d =>
      cases d with
      | valid ms => exact upsertQuery_WF self R i p (some ms) s hwf
      | invalid => exact hwf
  | consume i now => exact consume_WF i now s hwf
  | destroy i => exact filter_WF _ s hwf
  | revokeByGrantId g => exact filter_WF _ s hwf

/-- The key constraint holds in every store that a sequence of writes builds
from the empty table. -/
theorem runOps_WF (R : Rendering) (ops : List Op) :
    ∀ (s : Store), s.WF → (runOps R ops s).WF := by
  induction ops with
  | nil => intro s h; exact h
  | cons op rest ih => intro s h; exact ih (op.run R s) (run_WF R op s h)

theorem rowsAt_length_le_one (id : String) (s : Store) (hwf : s.WF) :
    (rowsAt id s).length ≤ 1 := by
  have hnd : ((rowsAt id s).map Row.id).Nodup := filter_WF _ s hwf
  have hrep : (rowsAt id s).map Row.id = List.replicate (rowsAt id s).length id := by
    rw [List.eq_replicate_iff]
    refine ⟨by simp, ?_⟩
    intro b hb
    obtain ⟨r, hr, rfl⟩ := List.mem_map.mp hb
    exact (mem_rowsAt.mp hr).2
  rw [hrep] at hnd
  exact List.nodup_replicate.mp hnd

theorem rowsAt_eq_singleton (id : String) (s : Store) (hwf : s.WF) (hne : rowsAt id s ≠ []) :
    ∃ r, rowsAt id s = [r] := by
  have hlen := rowsAt_length_le_one id s hwf
  cases h : rowsAt id s with
  | nil => exact absurd h hne
  | cons r rest =>
    rw [h] at hlen
    cases rest with
    | nil => exact ⟨r, rfl⟩
    | cons r2 rest2 => simp at hlen

theorem upsertQuery_filter_ne (self : PostgresAdapter) (R : Rendering) (id : String) (p : Payload)
    (e : Option Int) (s : Store) :
    (self.upsertQuery R id p e s).filter (fun r => !(r.id == id))
      = s.filter (fun r => !(r.id == id)) := by
  rcases mem_or_not_mem id s with hmem | hmem
  · rw [upsertQuery_of_mem self R id p e s hmem]
    apply filter_map_of_fixed
    · intro r _
      by_cases hr : r.id = id <;> simp [hr, conflictUpdate]
    · intro r _ hrid
      have : ¬ r.id = id := by simpa using hrid
      simp [this]
  · rw [upsertQuery_of_not_mem self R id p e s hmem, List.filter_append]
    simp [List.filter_cons, newRow]

/-! ## Upsert over an existing row -/

/-- C3, as amended. Let the table meet the key constraint and let the expiry of
each of the two calls be a valid `Date`, or the TTL be missing or zero. Then
`upsert(id, A, ttl)` and the following `upsert(id, B, ttl)` both write the
table and leave exactly one row of that id; its payload is `B` and its columns
`grant_id`, `user_code` and `uid` are those derived from `B`. The rows of every
other id are the rows there were, and so is their number. -/
theorem upsert_twice_single_row (self : PostgresAdapter) (R : Rendering) (id : String)
    (A B : Payload) (ttl : Option Int) (n1 n2 : Int) (s : Store) (hwf : s.WF)
    (h1 : ∀ n, ttl = some n → n ≠ 0 →
      -maxTimeValue ≤ n1 + n * 1000 ∧ n1 + n * 1000 ≤ maxTimeValue)
    (h2 : ∀ n, ttl = some n → n ≠ 0 →
      -maxTimeValue ≤ n2 + n * 1000 ∧ n2 + n * 1000 ≤ maxTimeValue) :
    ∃ s1 s2, self.upsert R id A ttl n1 s = .ok s1 ∧ self.upsert R id B ttl n2 s1 = .ok s2 ∧
      (∃ r, rowsAt id s2 = [r] ∧
        r.payload = B ∧
        r.grant_id = sqlText R.param (B.get "grantId") ∧
        r.user_code = sqlText R.param (B.get "userCode") ∧
        r.uid = sqlText R.param (B.get "uid")) ∧
      (∀ i, i ≠ id → rowsAt i s2 = rowsAt i s) ∧
      (s2.filter (fun r => !(r.id == id))).length
        = (s.filter (fun r => !(r.id == id))).length := by
  obtain ⟨e1, he1⟩ := upsert_ok ttl n1 h1
  obtain ⟨e2, he2⟩ := upsert_ok ttl n2 h2
  refine ⟨_, _, he1 self R id A s, he2 self R id B _, ?_, ?_, ?_⟩
  · obtain ⟨hne, hall⟩ := rowsAt_upsertQuery_self self R id B e2 (self.upsertQuery R id A e1 s)
    have hwf2 := upsertQuery_WF self R id B e2 _ (upsertQuery_WF self R id A e1 s hwf)
    obtain ⟨r, hr⟩ := rowsAt_eq_singleton id _ hwf2 hne
    refine ⟨r, hr, ?_⟩
    have := hall r (by rw [hr]; exact List.mem_singleton_self r)
    exact ⟨this.1, this.2.2.1, this.2.2.2.1, this.2.2.2.2⟩
  · intro i hi
    rw [rowsAt_upsertQuery_other self R id i B e2 _ (Ne.symm hi),
      rowsAt_upsertQuery_other self R id i A e1 s (Ne.symm hi)]
  · rw [upsertQuery_filter_ne, upsertQuery_filter_ne]

/-- Storing the session twice in the table of two rows, for a minute each
time: both calls write, and one row `sess` is left, which carries the second
payload and its identifiers. -/
theorem upsert_twice_single_row_witness :
    twoRows.WF ∧
    ∃ s1 s2, upsert { name := "Session" } sampleRendering "sess" sessionA (some 60) 1000 twoRows
        = .ok s1 ∧
      upsert { name := "Session" } sampleRendering "sess" sessionB (some 60) 2000 s1 = .ok s2 ∧
      ∃ r, rowsAt "sess" s2 = [r] ∧
        r.payload = sessionB ∧
        r.grant_id = some "g2" ∧
        r.user_code = none ∧
        r.uid = some "u2" := by
  refine ⟨by decide, ?_⟩
  obtain ⟨s1, s2, hs1, hs2, hrow, _, _⟩ :=
    upsert_twice_single_row { name := "Session" } sampleRendering "sess" sessionA sessionB
      (some 60) 1000 2000 twoRows (by decide)
      (by intro n hn _; cases hn; decide) (by intro n hn _; cases hn; decide)
  exact ⟨s1, s2, hs1, hs2, hrow⟩

/-- C3, as stated, fails for a TTL whose expiry is no `Date`: with the TTL
10^13 both calls are rejected, and the empty table they were made on holds no
row of that id afterwards. -/
theorem upsert_twice_rejected :
    upsert { name := "Session" } sampleRendering "sess" sessionA (some 10000000000000) 1000 []
      = .error "invalid input syntax for type timestamp" ∧
    upsert { name := "Session" } sampleRendering "sess" sessionB (some 10000000000000) 2000 []
      = .error "invalid input syntax for type timestamp" ∧
    rowsAt "sess" (runOps sampleRendering
      [ Op.upsert { name := "Session" } "sess" sessionA (some 10000000000000) 1000,
        Op.upsert { name := "Session" } "sess" sessionB (some 10000000000000) 2000 ] []) = [] :=
  ⟨rfl, rfl, rfl⟩

/-- C8, as amended. Let the table meet the key constraint and hold the row
`old` at `id`, and let the expiry of the call be a valid `Date`, or the TTL be
missing or zero. Then `upsert(id, payload, ttl)` writes the table, as the same
call does on a table without that id, and the row at `id` agrees with the row
created there in the columns payload, grant_id, user_code, uid and expires_at;
its columns type and consumed_at are those of `old`, whereas the created row
has the kind of the handle and no consumed_at. -/
theorem upsert_replaces_assigned_columns (self : PostgresAdapter) (R : Rendering) (id : String)
    (payload : Payload) (ttl : Option Int) (now : Int) (s fresh : Store) (old : Row)
    (hwf : s.WF) (hold : old ∈ s) (hid : old.id = id) (hfresh : ∀ r ∈ fresh, r.id ≠ id)
    (hdate : ∀ n, ttl = some n → n ≠ 0 →
      -maxTimeValue ≤ now + n * 1000 ∧ now + n * 1000 ≤ maxTimeValue) :
    ∃ s1 f1 r c, self.upsert R id payload ttl now s = .ok s1 ∧
      self.upsert R id payload ttl now fresh = .ok f1 ∧
      rowsAt id s1 = [r] ∧ rowsAt id f1 = [c] ∧
      r.id = c.id ∧ r.payload = c.payload ∧ r.grant_id = c.grant_id ∧
      r.user_code = c.user_code ∧ r.uid = c.uid ∧ r.expires_at = c.expires_at ∧
      r.type = old.type ∧ r.consumed_at = old.consumed_at ∧
      c.type = self.name ∧ c.consumed_at = none := by
  obtain ⟨e, he⟩ := upsert_ok ttl now hdate
  have hc : rowsAt id (self.upsertQuery R id payload e fresh)
      = [self.newRow R id payload e] := by
    rw [upsertQuery_of_not_mem self R id payload e fresh hfresh]
    have hnone : rowsAt id fresh = [] := by
      unfold rowsAt
      rw [List.filter_eq_nil_iff]
      intro r hr hrid
      exact hfresh r hr (by simpa using hrid)
    unfold rowsAt at hnone ⊢
    rw [List.filter_append, hnone]
    simp [List.filter_cons, newRow]
  have hr : rowsAt id (self.upsertQuery R id payload e s) = [conflictUpdate R payload e old] := by
    obtain ⟨r, hr⟩ := rowsAt_eq_singleton id _ (upsertQuery_WF self R id payload e s hwf)
      (rowsAt_upsertQuery_self self R id payload e s).1
    have hin : conflictUpdate R payload e old
        ∈ rowsAt id (self.upsertQuery R id payload e s) := by
      rw [upsertQuery_of_mem self R id payload e s ⟨old, hold, hid⟩, mem_rowsAt]
      refine ⟨List.mem_map.mpr ⟨old, hold, by simp [hid]⟩, ?_⟩
      simp [conflictUpdate, hid]
    rw [hr] at hin ⊢
    rw [List.mem_singleton.mp hin]
  refine ⟨_, _, _, _, he self R id payload s, he self R id payload fresh, hr, hc, ?_⟩
  simp [conflictUpdate, newRow, hid]

/-- Storing the second session over the row `sess` of the table of two rows:
the row takes payload, identifiers and expiry of the call and keeps its kind. -/
theorem upsert_replaces_assigned_columns_witness :
    twoRows.WF ∧
    ∃ s1 f1 r c,
      upsert { name := "Interaction" } sampleRendering "sess" sessionB (some 60) 2000 twoRows
        = .ok s1 ∧
      upsert { name := "Interaction" } sampleRendering "sess" sessionB (some 60) 2000 []
        = .ok f1 ∧
      rowsAt "sess" s1 = [r] ∧ rowsAt "sess" f1 = [c] ∧
      r.id = c.id ∧ r.payload = c.payload ∧ r.grant_id = c.grant_id ∧
      r.user_code = c.user_code ∧ r.uid = c.uid ∧ r.expires_at = c.expires_at ∧
      r.type = "Session" ∧ r.consumed_at = none ∧
      c.type = "Interaction" ∧ c.consumed_at = none :=
  ⟨by decide,
   upsert_replaces_assigned_columns { name := "Interaction" } sampleRendering "sess" sessionB
      (some 60) 2000 twoRows [] sessionRow
      (by decide) (List.mem_cons_self _ _) rfl (by simp)
      (by intro n hn _; cases hn; decide)⟩

/-- C8, as stated, fails on the column consumed_at: a code that was stored,
consumed at the time 5000 and stored again keeps `consumed_at = 5000`, while
the same `upsert` into an empty table creates a row without consumed_at. It
fails on the column type as well when the row was stored through a handle of
another kind. -/
theorem upsert_keeps_consumed_at :
    (runOps sampleRendering
      [ Op.upsert { name := "AuthorizationCode" } "code" tokenPayload (some 60) 1000,
        Op.consume "code" 5000,
        Op.upsert { name := "AuthorizationCode" } "code" tokenPayload (some 60) 9000 ]
      []).map (fun r => r.consumed_at) = [some 5000] ∧
    (runOps sampleRendering
      [ Op.upsert { name := "AuthorizationCode" } "code" tokenPayload (some 60) 9000 ]
      []).map (fun r => r.consumed_at) = [none] ∧
    (runOps sampleRendering
      [ Op.upsert { name := "Interaction" } "sess" sessionB (some 60) 2000 ]
      twoRows).map (fun r => r.type) = ["Session", "AccessToken"] ∧
    (runOps sampleRendering
      [ Op.upsert { name := "Interaction" } "sess" sessionB (some 60) 2000 ]
      []).map (fun r => r.type) = ["Interaction"] :=
  ⟨rfl, rfl, rfl, rfl⟩

/-! ## Consume -/

theorem jsonb_set_jsonb_set (p : Payload) (k : String) (v w : Json) :
    jsonb_set (jsonb_set p k v) k w = jsonb_set p k w := by
  by_cases hany : (p.any (fun m => m.1 == k)) = true
  · have h1 : jsonb_set p k v = p.map (fun m => if m.1 == k then (k, v) else m) := by
      unfold jsonb_set; rw [if_pos hany]
    have h2 : jsonb_set p k w = p.map (fun m => if m.1 == k then (k, w) else m) := by
      unfold jsonb_set; rw [if_pos hany]
    have hany' : ((p.map (fun m => if m.1 == k then (k, v) else m)).any
        (fun m => m.1 == k)) = true := by
      obtain ⟨m, hm, hk⟩ := List.any_eq_true.mp hany
      refine List.any_eq_true.mpr ⟨(k, v), List.mem_map.mpr ⟨m, hm, by simp [hk]⟩, by simp⟩
    rw [h1, h2]
    unfold jsonb_set
    rw [if_pos hany', List.map_map]
    apply List.map_congr_left
    intro m _
    by_cases hm : m.1 = k <;> simp [hm]
  · have hno : ∀ m ∈ p, ¬ m.1 = k := by
      intro m hm hk
      exact hany (List.any_eq_true.mpr ⟨m, hm, by simp [hk]⟩)
    have h1 : jsonb_set p k v = p ++ [(k, v)] := by
      unfold jsonb_set; rw [if_neg hany]
    have h2 : jsonb_set p k w = p ++ [(k, w)] := by
      unfold jsonb_set; rw [if_neg hany]
    have hany' : ((p ++ [(k, v)]).any (fun m => m.1 == k)) = true := by
      simp
    rw [h1, h2]
    unfold jsonb_set
    rw [if_pos hany', List.map_append]
    have hp : p.map (fun m => if m.1 == k then (k, w) else m) = p := by
      conv_rhs => rw [← List.map_id p]
      apply List.map_congr_left
      intro m hm
      simp [hno m hm]
    rw [hp]
    simp

theorem get_cons (m : String × Json) (l : Payload) (j : String) :
    Payload.get (m :: l) j = if m.1 == j then some m.2 else Payload.get l j := by
  unfold Payload.get
  rw [List.find?_cons]
  cases (m.1 == j) <;> rfl

theorem get_jsonb_set_of_ne (p : Payload) (k j : String) (v : Json) (h : j ≠ k) :
    Payload.get (jsonb_set p k v) j = Payload.get p j := by
  have hmap : ∀ l : Payload,
      Payload.get (l.map (fun m => if m.1 == k then (k, v) else m)) j = Payload.get l j := by
    intro l
    induction l with
    | nil => rfl
    | cons m rest ih =>
      by_cases hm : m.1 = k
      · have hf : (if m.1 == k then (k, v) else m) = (k, v) := by
          simp [hm]
        have hkj : (k == j) = false := by
          simpa using (fun hc : k = j => h hc.symm)
        have hmj : (m.1 == j) = false := by
          rw [hm]; exact hkj
        rw [List.map_cons, hf, get_cons, get_cons, ih]
        simp [hkj, hmj]
      · have hf : (if m.1 == k then (k, v) else m) = m := by
          simp [hm]
        rw [List.map_cons, hf, get_cons, get_cons, ih]
  unfold jsonb_set
  by_cases hany : (p.any (fun m => m.1 == k)) = true
  · rw [if_pos hany]; exact hmap p
  · rw [if_neg hany]
    unfold Payload.get
    rw [List.find?_append]
    have hkj : (k == j) = false := by
      simpa using (fun hc : k = j => h hc.symm)
    cases hf : List.find? (fun m => m.1 == j) p with
    | some m => simp
    | none => simp [List.find?_cons, hkj]

theorem get_jsonb_set_self (p : Payload) (k : String) (v : Json) :
    Payload.get (jsonb_set p k v) k = some v := by
  have hmap : ∀ l : Payload, (∃ m ∈ l, m.1 = k) →
      Payload.get (l.map (fun m => if m.1 == k then (k, v) else m)) k = some v := by
    intro l
    induction l with
    | nil => rintro ⟨m, hm, _⟩; exact absurd hm (List.not_mem_nil _)
    | cons m rest ih =>
      intro hex
      by_cases hm : m.1 = k
      · have hf : (if m.1 == k then (k, v) else m) = (k, v) := by
          simp [hm]
        rw [List.map_cons, hf, get_cons]
        simp
      · have hf : (if m.1 == k then (k, v) else m) = m := by
          simp [hm]
        have hmk : (m.1 == k) = false := by simpa using hm
        rw [List.map_cons, hf, get_cons, hmk]
        apply ih
        obtain ⟨m', hm', hk⟩ := hex
        rcases List.mem_cons.mp hm' with rfl | hin
        · exact absurd hk hm
        · exact ⟨m', hin, hk⟩
  unfold jsonb_set
  by_cases hany : (p.any (fun m => m.1 == k)) = true
  · rw [if_pos hany]
    obtain ⟨m, hm, hk⟩ := List.any_eq_true.mp hany
    exact hmap p ⟨m, hm, by simpa using hk⟩
  · rw [if_neg hany]
    have hnone : List.find? (fun m : String × Json => m.1 == k) p = none := by
      rw [List.find?_eq_none]
      intro m hm hk
      exact hany (List.any_eq_true.mpr ⟨m, hm, hk⟩)
    unfold Payload.get
    rw [List.find?_append, hnone]
    simp [List.find?_cons]

theorem consume_of_not_mem (id : String) (now : Int) (s : Store) (hno : ∀ r ∈ s, r.id ≠ id) :
    consume id now s = s := by
  unfold consume
  conv_rhs => rw [← List.map_id s]
  apply List.map_congr_left
  intro r hr
  simp [hno r hr]

theorem consume_consume (id : String) (t1 t2 : Int) (s : Store) :
    consume id t2 (consume id t1 s) = consume id t2 s := by
  unfold consume
  rw [List.map_map]
  apply List.map_congr_left
  intro r _
  by_cases h : r.id = id
  · simp [h, jsonb_set_jsonb_set]
  · simp [h]

/-- C4, as amended. Running `consume(id)` at the time `t1` and then again at
the time `t2` leaves the table that a single `consume(id)` at the time `t2`
leaves. Compared row by row with the table after the first call alone: in a row
of that id the member `consumed` and the column `consumed_at` hold the time
`t1` after the first call and the time `t2` after the second, every other
member and column is the same, and a row of another id is the same row. The
two tables are equal exactly when both calls read the same time or no row has
that id. -/
theorem consume_twice_is_last_consume (id : String) (t1 t2 : Int) (s : Store) :
    consume id t2 (consume id t1 s) = consume id t2 s ∧
    List.Forall₂
      (fun r r' => r'.id = r.id ∧ r'.type = r.type ∧ r'.grant_id = r.grant_id ∧
        r'.user_code = r.user_code ∧ r'.uid = r.uid ∧ r'.expires_at = r.expires_at ∧
        (∀ k, k ≠ "consumed" → r'.payload.get k = r.payload.get k) ∧
        (r.id = id →
          r.consumed_at = some t1 ∧ r.payload.get "consumed" = some (epoch t1) ∧
          r'.consumed_at = some t2 ∧ r'.payload.get "consumed" = some (epoch t2)) ∧
        (r.id ≠ id → r' = r))
      (consume id t1 s) (consume id t2 (consume id t1 s)) ∧
    (consume id t2 (consume id t1 s) = consume id t1 s ↔
      t1 = t2 ∨ ∀ r ∈ s, r.id ≠ id) := by
  refine ⟨consume_consume id t1 t2 s, ?_, ?_⟩
  · rw [consume_consume]
    unfold consume
    rw [List.forall₂_map_left_iff, List.forall₂_map_right_iff, List.forall₂_same]
    intro r _
    by_cases h : r.id = id
    · simp only [h, beq_self_eq_true, if_true, ne_eq, not_true_eq_false, false_implies,
        and_true, true_and, forall_const]
      refine ⟨?_, get_jsonb_set_self _ _ _, get_jsonb_set_self _ _ _⟩
      intro k hk
      rw [get_jsonb_set_of_ne r.payload "consumed" k (epoch t2) hk,
        get_jsonb_set_of_ne r.payload "consumed" k (epoch t1) hk]
    · have hb : (r.id == id) = false := by simpa using h
      simp [hb, h]
  · rw [consume_consume]
    constructor
    · intro heq
      by_cases hno : ∀ r ∈ s, r.id ≠ id
      · exact Or.inr hno
      · left
        have hex : ∃ r ∈ s, r.id = id := by
          by_contra hc
          exact hno (fun r hr hrid => hc ⟨r, hr, hrid⟩)
        obtain ⟨r, hr, hrid⟩ := hex
        unfold consume at heq
        have hrow := (List.map_inj_left.mp heq) r hr
        have hb : (r.id == id) = true := by simpa using hrid
        simp only [hb, if_true] at hrow
        have hc := congrArg Row.consumed_at hrow
        simp only [Option.some.injEq] at hc
        exact hc.symm
    · rintro (rfl | hno)
      · rfl
      · rw [consume_of_not_mem id t2 s hno, consume_of_not_mem id t1 s hno]

/-- In the table of two rows, two consumes of the token at the times 5000 and
9000 do not leave what the first alone leaves, while two consumes of an id that
no row has do. -/
theorem consume_twice_is_last_consume_witness :
    consume "tok" 9000 (consume "tok" 5000 twoRows) ≠ consume "tok" 5000 twoRows ∧
    consume "nothing" 9000 (consume "nothing" 5000 twoRows)
      = consume "nothing" 5000 twoRows := by
  constructor
  · intro heq
    rcases (consume_twice_is_last_consume "tok" 5000 9000 twoRows).2.2.mp heq with h | h
    · exact absurd h (by decide)
    · exact h (tokenRow none) (by simp [twoRows]) rfl
  · exact (consume_twice_is_last_consume "nothing" 5000 9000 twoRows).2.2.mpr
      (Or.inr (by decide))

/-- C4, as stated, fails when time passes between the two calls: consuming the
token at the times 5000 and 9000 leaves `consumed_at = 9000` and
`consumed = 9`, while a single consume at the time 5000 leaves
`consumed_at = 5000` and `consumed = 5`. -/
theorem consume_twice_differs :
    (consume "tok" 9000 (consume "tok" 5000 twoRows)).map (fun r => r.consumed_at)
      = [none, some 9000] ∧
    (consume "tok" 5000 twoRows).map (fun r => r.consumed_at) = [none, some 5000] ∧
    (consume "tok" 9000 (consume "tok" 5000 twoRows)).map (fun r => r.payload.get "consumed")
      = [none, some (Json.num 9)] ∧
    (consume "tok" 5000 twoRows).map (fun r => r.payload.get "consumed")
      = [none, some (Json.num 5)] ∧
    Json.num 9 ≠ Json.num 5 := by
  refine ⟨rfl, rfl, ?_, ?_, ?_⟩
  · have h : epoch 9000 = Json.num 9 := by unfold epoch; norm_num
    rw [← h]; rfl
  · have h : epoch 5000 = Json.num 5 := by unfold epoch; norm_num
    rw [← h]; rfl
  · intro h
    injection h with h
    norm_num at h

theorem find_isSome (id : String) (q : Int) (s : Store) :
    (find id q s).isSome = s.any (fun r => r.id == id && notExpired q r) := by
  unfold find
  cases hf : s.filter (fun r => r.id == id && notExpired q r) with
  | nil =>
    have : ∀ r ∈ s, ¬ (r.id == id && notExpired q r) = true :=
      List.filter_eq_nil_iff.mp hf
    have hany : ¬ (s.any (fun r => r.id == id && notExpired q r)) = true := by
      intro hc
      obtain ⟨r, hr, hp⟩ := List.any_eq_true.mp hc
      exact this r hr hp
    simp only [Option.isSome_none]
    exact (Bool.not_eq_true _ ▸ hany).symm
  | cons r rest =>
    have hr : r ∈ s.filter (fun r => r.id == id && notExpired q r) := by
      rw [hf]; exact List.mem_cons_self _ _
    obtain ⟨hmem, hp⟩ := List.mem_filter.mp hr
    simp only [Option.isSome_some]
    exact (List.any_eq_true.mpr ⟨r, hmem, hp⟩).symm

/-- C10. The rows after `consume(id)` are, position by position, the rows
before it with the same id, type, grant_id, user_code, uid and expires_at,
with every member of the payload other than `consumed` as it was, and a row of
another id is the very row it was. At every query time `find(id)` returns a
payload after the call exactly when it did before. When no row has that id,
the table is unchanged. -/
theorem consume_changes_only_marker (id : String) (now : Int) (s : Store) :
    List.Forall₂
      (fun r r' => r'.id = r.id ∧ r'.type = r.type ∧ r'.grant_id = r.grant_id ∧
        r'.user_code = r.user_code ∧ r'.uid = r.uid ∧ r'.expires_at = r.expires_at ∧
        (∀ k, k ≠ "consumed" → r'.payload.get k = r.payload.get k) ∧
        (r.id ≠ id → r' = r))
      s (consume id now s) ∧
    (∀ q, (find id q (consume id now s)).isSome = (find id q s).isSome) ∧
    ((∀ r ∈ s, r.id ≠ id) → consume id now s = s) := by
  refine ⟨?_, ?_, ?_⟩
  · induction s with
    | nil => exact List.Forall₂.nil
    | cons r rest ih =>
      refine List.Forall₂.cons ?_ ih
      by_cases h : r.id = id
      · simp only [h, beq_self_eq_true, if_true, ne_eq, not_true_eq_false, false_implies,
          and_true, true_and]
        intro k hk
        exact get_jsonb_set_of_ne r.payload "consumed" k (epoch now) hk
      · have hb : (r.id == id) = false := by simpa using h
        simp [hb]
  · intro q
    rw [find_isSome, find_isSome]
    unfold consume
    rw [List.any_map]
    congr 1
    funext r
    by_cases h : r.id = id
    · simp [h, notExpired]
    · simp [h]
  · intro hno
    unfold consume
    conv_rhs => rw [← List.map_id s]
    apply List.map_congr_left
    intro r hr
    simp [hno r hr]

/-- Consuming the token of the table of two rows: the session row is the row it
was, the token keeps its members `grantId`, `accountId` and `scope`, and a
consume of an id that no row has changes nothing. -/
theorem consume_changes_only_marker_witness :
    (∀ r ∈ twoRows, r.id ≠ "nothing") ∧
    consume "nothing" 5000 twoRows = twoRows ∧
    (find "tok" 7000 (consume "tok" 5000 twoRows)).isSome = (find "tok" 7000 twoRows).isSome ∧
    (find "sess" 90000 (consume "sess" 5000 twoRows)).isSome
      = (find "sess" 90000 twoRows).isSome :=
  ⟨by decide,
   (consume_changes_only_marker "nothing" 5000 twoRows).2.2 (by decide),
   (consume_changes_only_marker "tok" 5000 twoRows).2.1 7000,
   (consume_changes_only_marker "sess" 5000 twoRows).2.1 90000⟩

/-! ## Revocation of a grant -/

theorem colEq_iff (c : Option String) (key : String) : colEq c key = true ↔ c = some key := by
  cases c with
  | none => simp [colEq]
  | some v => simp [colEq]

/-- C5. After `revokeByGrantId(g)` the table holds exactly the rows it held
whose grant_id is not `g` (a NULL grant_id included), unchanged and in their
order, whatever their kind; when no row has the grant `g` the table is
unchanged. -/
theorem revokeByGrantId_removes_group (g : String) (s : Store) :
    (∀ r, r ∈ revokeByGrantId g s ↔ r ∈ s ∧ r.grant_id ≠ some g) ∧
    List.Sublist (revokeByGrantId g s) s ∧
    ((∀ r ∈ s, r.grant_id ≠ some g) → revokeByGrantId g s = s) := by
  refine ⟨?_, ?_, ?_⟩
  · intro r
    unfold revokeByGrantId
    rw [List.mem_filter]
    constructor
    · rintro ⟨hr, hc⟩
      refine ⟨hr, fun hg => ?_⟩
      rw [(colEq_iff _ _).mpr hg] at hc
      exact absurd hc (by decide)
    · rintro ⟨hr, hg⟩
      refine ⟨hr, ?_⟩
      cases hc : colEq r.grant_id g with
      | false => rfl
      | true => exact absurd ((colEq_iff _ _).mp hc) hg
  · exact List.filter_sublist s
  · intro hno
    unfold revokeByGrantId
    rw [List.filter_eq_self]
    intro r hr
    cases hc : colEq r.grant_id g with
    | false => rfl
    | true => exact absurd ((colEq_iff _ _).mp hc) (hno r hr)

/-- Revoking the grant `g1` empties the table of two rows, whose session and
token both belong to it; revoking the grant `g9`, which no row has, leaves the
table as it is. -/
theorem revokeByGrantId_removes_group_witness :
    revokeByGrantId "g1" twoRows = [] ∧
    (∀ r ∈ twoRows, r.grant_id ≠ some "g9") ∧
    revokeByGrantId "g9" twoRows = twoRows :=
  ⟨rfl, by decide, (revokeByGrantId_removes_group "g9" twoRows).2.2 (by decide)⟩

/-! ## Lookup by a secondary key -/

theorem notExpired_iff (now : Int) (r : Row) :
    notExpired now r = true ↔ ∀ e, r.expires_at = some e → now < e := by
  unfold notExpired
  cases r.expires_at with
  | none => simp
  | some x => simp

/-- The payload of the first row of `WHERE c = $1 AND (expires_at IS NULL OR
expires_at > NOW()) LIMIT 1`, for a column `c`. -/
theorem lookup_first_live (col : Row → Option String) (key : String) (now : Int) (s : Store) :
    let res := (((s.filter (fun r => colEq (col r) key && notExpired now r)).take 1).head?).map
      (fun r => r.payload)
    (res = none ∨ ∃ r ∈ s, col r = some key ∧ (∀ e, r.expires_at = some e → now < e) ∧
        res = some r.payload) ∧
    ((∀ r ∈ s, col r = some key → ∃ e, r.expires_at = some e ∧ e ≤ now) → res = none) ∧
    ((∃ r ∈ s, col r = some key ∧ ∀ e, r.expires_at = some e → now < e) → res.isSome = true) := by
  intro res
  have hres : res = (((s.filter (fun r => colEq (col r) key && notExpired now r)).take 1).head?).map
      (fun r => r.payload) := rfl
  cases hf : s.filter (fun r => colEq (col r) key && notExpired now r) with
  | nil =>
    have hnone : res = none := by rw [hres, hf]; rfl
    have hall : ∀ r ∈ s, ¬ (colEq (col r) key && notExpired now r) = true :=
      List.filter_eq_nil_iff.mp hf
    refine ⟨Or.inl hnone, fun _ => hnone, ?_⟩
    rintro ⟨r, hr, hk, hlive⟩
    exfalso
    apply hall r hr
    rw [Bool.and_eq_true]
    exact ⟨(colEq_iff _ _).mpr hk, (notExpired_iff now r).mpr hlive⟩
  | cons r rest =>
    have hsome : res = some r.payload := by rw [hres, hf]; rfl
    have hr : r ∈ s.filter (fun r => colEq (col r) key && notExpired now r) := by
      rw [hf]; exact List.mem_cons_self _ _
    obtain ⟨hmem, hp⟩ := List.mem_filter.mp hr
    rw [Bool.and_eq_true] at hp
    have hk := (colEq_iff _ _).mp hp.1
    have hlive := (notExpired_iff now r).mp hp.2
    refine ⟨Or.inr ⟨r, hmem, hk, hlive, hsome⟩, ?_, fun _ => by rw [hsome]; rfl⟩
    intro hexp
    obtain ⟨e, he, hle⟩ := hexp r hmem hk
    exact absurd (hlive e he) (not_lt.mpr hle)

/-- C6. At every query time `findByUid(key)` and `findByUserCode(key)` return
either `undefined` or the payload of a row whose key column is `key` and whose
expires_at is NULL or later than the query time; they return `undefined` when
every row with that key has expired, and a payload when some row with that key
has not. -/
theorem secondary_lookups_skip_expired (key : String) (now : Int) (s : Store) :
    ((findByUid key now s = none ∨
        ∃ r ∈ s, r.uid = some key ∧ (∀ e, r.expires_at = some e → now < e) ∧
          findByUid key now s = some r.payload) ∧
      ((∀ r ∈ s, r.uid = some key → ∃ e, r.expires_at = some e ∧ e ≤ now) →
        findByUid key now s = none) ∧
      ((∃ r ∈ s, r.uid = some key ∧ ∀ e, r.expires_at = some e → now < e) →
        (findByUid key now s).isSome = true)) ∧
    ((findByUserCode key now s = none ∨
        ∃ r ∈ s, r.user_code = some key ∧ (∀ e, r.expires_at = some e → now < e) ∧
          findByUserCode key now s = some r.payload) ∧
      ((∀ r ∈ s, r.user_code = some key → ∃ e, r.expires_at = some e ∧ e ≤ now) →
        findByUserCode key now s = none) ∧
      ((∃ r ∈ s, r.user_code = some key ∧ ∀ e, r.expires_at = some e → now < e) →
        (findByUserCode key now s).isSome = true)) :=
  ⟨lookup_first_live (fun r => r.uid) key now s,
   lookup_first_live (fun r => r.user_code) key now s⟩

/-- At the time 2000 the lookups pass over the expired row that is stored first
and return the session of the second row; at the time 3000 both rows have
expired and the lookup by uid returns `undefined`. -/
theorem secondary_lookups_skip_expired_witness :
    findByUid "u1" 3000 mixedExpiry = none ∧
    (findByUserCode "ABCD-1234" 2000 mixedExpiry).isSome = true ∧
    findByUserCode "ABCD-1234" 2000 mixedExpiry = some sessionA ∧
    findByUid "u1" 2000 mixedExpiry = some sessionA := by
  refine ⟨?_, ?_, rfl, rfl⟩
  · apply (secondary_lookups_skip_expired "u1" 3000 mixedExpiry).1.2.1
    intro r hr _
    simp only [mixedExpiry, List.mem_cons, List.mem_singleton, List.not_mem_nil, or_false] at hr
    rcases hr with rfl | rfl
    · exact ⟨1000, rfl, by decide⟩
    · exact ⟨3000, rfl, by decide⟩
  · apply (secondary_lookups_skip_expired "ABCD-1234" 2000 mixedExpiry).2.2.2
    refine ⟨liveDevice, ?_, rfl, ?_⟩
    · simp [mixedExpiry]
    · intro e he
      cases he
      decide

/-! ## Lookup of a client by its key set URL -/

/-- C7, evaluated. A client stored with a TTL of ten seconds at the time 1000
expires at the time 11000: `find` does not return it at the time 20000, while
`findClientByJwksUri`, whose query has no condition on expires_at and so does
not depend on the time of the call, returns its payload. -/
theorem findClientByJwksUri_returns_expired :
    upsert { name := "Client" } sampleRendering "c1" clientPayload (some 10) 1000 []
      = .ok clientTable ∧
    clientTable.map (fun r => r.expires_at) = [some 11000] ∧
    find "c1" 20000 clientTable = none ∧
    findClientByJwksUri sampleRendering "https://issuer/jwks" clientTable = some clientPayload :=
  ⟨rfl, rfl, rfl, rfl⟩

/-! ## The choice of the backend -/

/-- C9, as amended. The call returns an adapter exactly when the configured
type is "mongodb", "dynamodb", "memorydb" or "postgres" and, for "mongodb" and
"postgres", the connection of that backend is made; it is then the adapter of
that backend. When that connection fails, the call is rejected with the error
of the connection: it returns no adapter and does not exit. For every other
value of the type, a missing one included, the process exits with the code 1,
and no other exit code occurs. -/
theorem getDBAdapter_dispatch (type : Option String) (env : Env) :
    (∀ a, getDBAdapter type env = .returned a ↔
      (type = some "mongodb" ∧ env.mongoConnect = .ok () ∧ a = Adapter.MongoAdapter) ∨
      (type = some "dynamodb" ∧ a = Adapter.DynamoDBAdapter) ∨
      (type = some "memorydb" ∧ a = Adapter.MemoryAdapter) ∨
      (type = some "postgres" ∧ env.poolConnect = .ok () ∧ a = Adapter.PostgresAdapter)) ∧
    (∀ e, getDBAdapter type env = .rejected e ↔
      (type = some "mongodb" ∧ env.mongoConnect = .error e) ∨
      (type = some "postgres" ∧ env.poolConnect = .error e)) ∧
    (getDBAdapter type env = .exited 1 ↔
      type ≠ some "mongodb" ∧ type ≠ some "dynamodb" ∧ type ≠ some "memorydb" ∧
      type ≠ some "postgres") ∧
    (∀ c, getDBAdapter type env = .exited c → c = 1) := by
  obtain ⟨mongo, pool⟩ := env
  by_cases h1 : type = some "mongodb"
  · subst h1
    cases mongo with
    | error e => simp [getDBAdapter, MongoAdapter.connect]
    | ok u => cases u; simp [getDBAdapter, MongoAdapter.connect, eq_comm]
  · by_cases h2 : type = some "dynamodb"
    · subst h2
      simp [getDBAdapter, eq_comm]
    · by_cases h3 : type = some "memorydb"
      · subst h3
        simp [getDBAdapter, eq_comm]
      · by_cases h4 : type = some "postgres"
        · subst h4
          cases pool with
          | error e => simp [getDBAdapter, PostgresAdapter.connect]
          | ok u => cases u; simp [getDBAdapter, PostgresAdapter.connect, eq_comm]
        · simp [getDBAdapter, h1, h2, h3, h4, eq_comm]

/-- With every backend answering, "postgres" yields the relational adapter; a
missing type and the type "sqlite" end the process with the code 1. -/
theorem getDBAdapter_dispatch_witness :
    getDBAdapter (some "postgres") allUp = .returned Adapter.PostgresAdapter ∧
    getDBAdapter none allUp = .exited 1 ∧
    getDBAdapter (some "sqlite") allUp = .exited 1 :=
  ⟨((getDBAdapter_dispatch (some "postgres") allUp).1 Adapter.PostgresAdapter).mpr
      (Or.inr (Or.inr (Or.inr ⟨rfl, rfl, rfl⟩))),
   (getDBAdapter_dispatch none allUp).2.2.1.mpr (by decide),
   (getDBAdapter_dispatch (some "sqlite") allUp).2.2.1.mpr (by decide)⟩

/-- C9, as stated, fails when the backend cannot be reached: with the type
"postgres", one of the four, and a pool that refuses the connection, the call
is rejected and returns no adapter. -/
theorem getDBAdapter_rejected_when_pool_down :
    getDBAdapter (some "postgres") poolDown = .rejected "ECONNREFUSED" ∧
    ∀ a, getDBAdapter (some "postgres") poolDown ≠ .returned a :=
  ⟨rfl, fun a h => by cases h⟩

end AuthServer
